import Mathlib

/-!
Verification of the `apitkt` request/response pipeline.

The development shallowly embeds the pipeline of `src/apitkt`:
`client.py` (URL building, header merging, error translation, body
preview), `exceptions.py` (the error taxonomy) and `log.py` (the
logging decorator and its redaction logic).

Python strings are modelled as lists of unicode code points
(`List Char`); Python dicts as insertion-ordered association lists
with unique keys, where assignment `d[k] = v` replaces the value at
the existing entry in place and otherwise appends.  The HTTP
transport (httpx) is an external collaborator and is modelled as a
function from the call the pipeline makes to either a response or a
transport-level error.
-/

set_option maxHeartbeats 1000000

namespace Apitkt

/-- A Python string: a sequence of unicode code points. -/
abbrev Str := List Char

/-- Python `str.lower()` (ASCII case folding suffices for the keys used here). -/
def pyLower (s : Str) : Str := s.map Char.toLower

/-- Python `str.upper()`. -/
def pyUpper (s : Str) : Str := s.map Char.toUpper

/-- Python substring test `needle in hay`. -/
def strIn (needle : Str) : Str → Bool
  | [] => needle.isPrefixOf []
  | c :: rest => needle.isPrefixOf (c :: rest) || strIn needle rest

/-- Python dict assignment `d[k] = v` on an insertion-ordered association
list: replace the value at the first entry with key `k` in place (keeping
the stored key and its position), else append `(k, v)`. -/
def dictInsert {α : Type} : List (Str × α) → Str → α → List (Str × α)
  | [], k, v => [(k, v)]
  | (k', v') :: rest, k, v =>
    if k' = k then (k', v) :: rest else (k', v') :: dictInsert rest k v

/-- Python `d.update(src)`: assign every entry of `src` into `d`, in order. -/
def dictUpdate {α : Type} (d src : List (Str × α)) : List (Str × α) :=
  src.foldl (fun acc kv => dictInsert acc kv.1 kv.2) d

/-- Python dict lookup `d.get(k)`: value of the first entry with key `k`. -/
def dictGet {α : Type} : List (Str × α) → Str → Option α
  | [], _ => none
  | (k', v) :: rest, k => if k' = k then some v else dictGet rest k

/-- A Python value (`Any`), as needed for JSON payloads and log records. -/
inductive PyVal where
  | none
  | bool (b : Bool)
  | int (n : Int)
  | str (s : Str)
  | list (elems : List PyVal)
  | dict (items : List (Str × PyVal))

instance : Inhabited PyVal := ⟨PyVal.none⟩

/-- The observable part of an `httpx.Response`.  The body accessors
`response.json()` and `response.text`, and the `content-type` header
access, can each raise in Python; they are modelled as `Except Unit`. -/
structure Response where
  status_code : Int
  url : Str
  content_type : Except Unit Str
  json : Except Unit PyVal
  text : Except Unit Str

/-- The dict returned by `_safe_body_preview`:
`{"type": ..., "preview": ...}` where the preview is `None` exactly in
the `"unknown"` case. -/
structure BodyPreview where
  type : Str
  preview : Option PyVal

/-- `_safe_body_preview(response, max_len)` from `client.py` (the call in
`request` uses the default `max_len = 500`).  The Python `try`/`except`
around the body is modelled by propagating each accessor's failure to the
`{"type": "unknown", "preview": None}` fallback. -/
def safe_body_preview (response : Response) (max_len : Nat) : BodyPreview :=
  match response.content_type with
  | .error _ => ⟨"unknown".toList, Option.none⟩
  | .ok content_type =>
    if strIn "application/json".toList (pyLower content_type) then
      match response.json with
      | .error _ => ⟨"unknown".toList, Option.none⟩
      | .ok obj => ⟨"json".toList, some obj⟩
    else
      match response.text with
      | .error _ => ⟨"unknown".toList, Option.none⟩
      | .ok text =>
        ⟨"text".toList,
         some (.str (if text.length > max_len
                     then text.take (max_len - 3) ++ "...".toList
                     else text))⟩

/-- The `apitkt` error taxonomy from `exceptions.py`: `APIRequestError`
carries the message and the chained original exception (modelled by its
message); `APIResponseError` carries status code, final URL and body
preview. -/
inductive APIError where
  | requestError (message : Str) (original_exception : Str)
  | responseError (status_code : Int) (url : Str) (body : BodyPreview)

/-- The state stored by `APIClient.__init__`. -/
structure Client where
  base_url : Str
  timeout : ℚ
  default_headers : List (Str × Str)
  auth : Option PyVal
  raise_for_status : Bool

/-- `APIClient.__init__`: strips one trailing `"/"` (Python
`base_url[:-1]`, i.e. drop the last code point) when the base URL ends
with `"/"`, and stores `dict(headers or {})` as the default headers of
the underlying transport client. -/
def clientInit (base_url : Str) (timeout : ℚ) (headers : Option (List (Str × Str)))
    (auth : Option PyVal) (raise_for_status : Bool) : Client :=
  { base_url := if "/".toList.isSuffixOf base_url then base_url.dropLast else base_url
    timeout := timeout
    default_headers := dictUpdate [] (headers.getD [])
    auth := auth
    raise_for_status := raise_for_status }

/-- `APIClient._build_url`: absolute `http(s)` URLs pass through
unchanged; otherwise a leading `"/"` is ensured. -/
def build_url (path : Str) : Str :=
  if "http://".toList.isPrefixOf path || "https://".toList.isPrefixOf path then path
  else if "/".toList.isPrefixOf path then path
  else '/' :: path

/-- The header merge performed by `APIClient.request`:
`merged_headers = {}`, `if self._client.headers: merged_headers.update(...)`,
`if headers: merged_headers.update(headers)` (Python truthiness: `None`
and the empty dict skip the update). -/
def requestMergedHeaders (default_headers : List (Str × Str))
    (headers : Option (List (Str × Str))) : List (Str × Str) :=
  let merged := if default_headers ≠ [] then dictUpdate [] default_headers else []
  match headers with
  | Option.none => merged
  | some h => if h ≠ [] then dictUpdate merged h else merged

/-- The call `APIClient.request` hands to `httpx.Client.request`. -/
structure TransportCall where
  method : Str
  url : Str
  params : Option (List (Str × PyVal))
  headers : List (Str × Str)
  json : Option PyVal
  data : Option Str

/-- The external HTTP transport: either returns a response or fails with
a transport-level error (an `httpx.RequestError`, identified by its
message). -/
abbrev Transport := TransportCall → Except Str Response

/-- `APIClient.request`: build the URL, merge headers, delegate to the
transport; translate transport failures into `APIRequestError` (message
`f"Error while requesting {url}"`, chained cause preserved) and, when
`raise_for_status` is set, non-2xx status codes into `APIResponseError`. -/
def request (c : Client) (transport : Transport) (method path : Str)
    (params : Option (List (Str × PyVal))) (headers : Option (List (Str × Str)))
    (json : Option PyVal) (data : Option Str) : Except APIError Response :=
  let url := build_url path
  let merged_headers := requestMergedHeaders c.default_headers headers
  match transport ⟨pyUpper method, url, params, merged_headers, json, data⟩ with
  | .error exc =>
    .error (.requestError ("Error while requesting ".toList ++ url) exc)
  | .ok response =>
    if c.raise_for_status = true ∧ ¬(200 ≤ response.status_code ∧ response.status_code < 300) then
      .error (.responseError response.status_code response.url (safe_body_preview response 500))
    else .ok response

/-- `SENSITIVE_HEADER_KEYS` from `log.py`. -/
def SENSITIVE_HEADER_KEYS : List Str :=
  ["authorization".toList, "proxy-authorization".toList]

/-- `SENSITIVE_JSON_KEYS` from `log.py`. -/
def SENSITIVE_JSON_KEYS : List Str :=
  ["password".toList, "token".toList, "access_token".toList,
   "refresh_token".toList, "secret".toList]

/-- The fixed redaction marker `"***redacted***"`. -/
def REDACTED : PyVal := .str "***redacted***".toList

/-- The body of the loop in `_redact_mapping`: one assignment into the
`redacted` dict, using the marker when `key.lower()` is sensitive. -/
def redactStep (sensitive_keys : List Str) (redacted : List (Str × PyVal))
    (kv : Str × PyVal) : List (Str × PyVal) :=
  if pyLower kv.1 ∈ sensitive_keys then dictInsert redacted kv.1 REDACTED
  else dictInsert redacted kv.1 kv.2

/-- `_redact_mapping(data, sensitive_keys)` from `log.py`: build a fresh
dict, assigning the redaction marker for keys whose lower-casing is in
the sensitive set and the original value otherwise. -/
def redact_mapping (data : List (Str × PyVal)) (sensitive_keys : List Str) :
    List (Str × PyVal) :=
  data.foldl (redactStep sensitive_keys) []

/-- The state stored by `LoggedClient.__init__` on top of the wrapped
pipeline's state. -/
structure LoggedClient where
  client : Client
  log_headers : Bool
  log_body_preview : Bool

/-- The structured record (`extra`) emitted by `LoggedClient.request`.
Fields set only conditionally in the Python dict are modelled as
`Option`. -/
structure LogRecord where
  method : Str
  path : Str
  elapsed_ms : ℚ
  params : Option (List (Str × PyVal))
  request_headers : Option (List (Str × PyVal))
  request_json : Option PyVal
  response_content_type : Option Str
  response_json_preview : Option PyVal
  response_text_preview : Option Str
  response_preview_error : Option Str
  status_code : Int

/-- Python `round(x, 2)` idealized over the rationals. -/
def roundTo2 (q : ℚ) : ℚ := (round (q * 100) : ℤ) / 100

/-- The `combined_headers` computed for logging in `LoggedClient.request`:
`{}` updated with `dict(self._client.headers)` and then, if truthy, with
`dict(headers)`. -/
def loggedCombinedHeaders (default_headers : List (Str × Str))
    (headers : Option (List (Str × Str))) : List (Str × Str) :=
  let combined := dictUpdate [] default_headers
  match headers with
  | Option.none => combined
  | some h => if h ≠ [] then dictUpdate combined h else combined

/-- The `request_json` field of the log record: the request payload with
common sensitive fields redacted when it is a dict, or a fixed
placeholder when it is not. -/
def requestJsonField (log_body_preview : Bool) (json : Option PyVal) : Option PyVal :=
  if log_body_preview then
    match json with
    | Option.none => Option.none
    | some (.dict items) => some (.dict (redact_mapping items SENSITIVE_JSON_KEYS))
    | some _ => some (.str "<non-dict json payload>".toList)
  else Option.none

/-- The response-preview fields of the log record, in order:
`response_content_type`, `response_json_preview`, `response_text_preview`,
`response_preview_error`.  Mirrors the `try`/`except` block of
`LoggedClient.request`, including the partial assignment of
`response_content_type` before a body-reading failure. -/
def responsePreviewFields (response : Response) :
    Option Str × Option PyVal × Option Str × Option Str :=
  match response.content_type with
  | .error _ =>
    (Option.none, Option.none, Option.none, some "could not read response body".toList)
  | .ok content_type =>
    if strIn "application/json".toList (pyLower content_type) then
      match response.json with
      | .error _ =>
        (some content_type, Option.none, Option.none,
         some "could not read response body".toList)
      | .ok (.dict items) =>
        (some content_type, some (.dict (items.take 10)), Option.none, Option.none)
      | .ok _ =>
        (some content_type, some (.str "<non-dict json payload>".toList),
         Option.none, Option.none)
    else
      match response.text with
      | .error _ =>
        (some content_type, Option.none, Option.none,
         some "could not read response body".toList)
      | .ok text =>
        (some content_type, Option.none,
         some (text.take 200 ++ (if text.length > 200 then "...".toList else [])),
         Option.none)

/-- `LoggedClient.request`: invoke the wrapped pipeline, compute the
elapsed time in the `finally` block on every exit path (second
component), and on success build and emit the structured log record
(third component; `Option.none` when the wrapped call raised, in which
case the error propagates unchanged). `t0` and `t1` are the monotonic
clock readings around the wrapped call. -/
def logged_request (lc : LoggedClient) (transport : Transport) (method path : Str)
    (params : Option (List (Str × PyVal))) (headers : Option (List (Str × Str)))
    (json : Option PyVal) (data : Option Str) (t0 t1 : ℚ) :
    Except APIError Response × ℚ × Option LogRecord :=
  let outcome := request lc.client transport method path params headers json data
  let elapsed_ms := (t1 - t0) * 1000
  match outcome with
  | .error e => (.error e, elapsed_ms, Option.none)
  | .ok response =>
    let fields := responsePreviewFields response
    (.ok response, elapsed_ms,
     some
       { method := pyUpper method
         path := path
         elapsed_ms := roundTo2 elapsed_ms
         params :=
           match params with
           | some p => if p.isEmpty then Option.none else some p
           | Option.none => Option.none
         request_headers :=
           if lc.log_headers then
             some (redact_mapping
               ((loggedCombinedHeaders lc.client.default_headers headers).map
                 (fun kv => (kv.1, PyVal.str kv.2)))
               SENSITIVE_HEADER_KEYS)
           else Option.none
         request_json := requestJsonField lc.log_body_preview json
         response_content_type := if lc.log_body_preview then fields.1 else Option.none
         response_json_preview := if lc.log_body_preview then fields.2.1 else Option.none
         response_text_preview := if lc.log_body_preview then fields.2.2.1 else Option.none
         response_preview_error := if lc.log_body_preview then fields.2.2.2 else Option.none
         status_code := response.status_code })

/-! ### Dictionary lemmas -/

theorem dictGet_dictInsert {α : Type} (d : List (Str × α)) (k k' : Str) (v : α) :
    dictGet (dictInsert d k v) k' = if k = k' then some v else dictGet d k' := by
  induction d with
  | nil => rfl
  | cons kv rest ih =>
    obtain ⟨a, b⟩ := kv
    by_cases hak : a = k
    · subst hak
      by_cases h2 : a = k' <;> simp [dictInsert, dictGet, h2]
    · by_cases h2 : a = k'
      · subst h2
        simp [dictInsert, dictGet, hak, Ne.symm hak]
      · simp [dictInsert, dictGet, hak, h2, ih]

theorem dictGet_eq_none {α : Type} (d : List (Str × α)) (k : Str)
    (h : k ∉ d.map Prod.fst) : dictGet d k = none := by
  induction d with
  | nil => rfl
  | cons kv rest ih =>
    obtain ⟨a, b⟩ := kv
    simp only [List.map_cons, List.mem_cons] at h
    push_neg at h
    simp [dictGet, Ne.symm h.1, ih h.2]

theorem dictGet_dictUpdate {α : Type} (H : List (Str × α)) (k : Str)
    (hH : (H.map Prod.fst).Nodup) (d : List (Str × α)) :
    dictGet (dictUpdate d H) k =
      match dictGet H k with
      | some v => some v
      | Option.none => dictGet d k := by
  induction H generalizing d with
  | nil => rfl
  | cons kv rest ih =>
    obtain ⟨k0, v0⟩ := kv
    simp only [List.map_cons, List.nodup_cons] at hH
    have step : dictUpdate d ((k0, v0) :: rest) = dictUpdate (dictInsert d k0 v0) rest := rfl
    rw [step, ih hH.2]
    by_cases hk : k0 = k
    · subst hk
      have hrest : dictGet rest k0 = none := dictGet_eq_none _ _ hH.1
      simp [dictGet, hrest, dictGet_dictInsert]
    · simp [dictGet, hk, dictGet_dictInsert]

theorem dictInsert_of_not_mem {α : Type} (d : List (Str × α)) (k : Str) (v : α)
    (h : k ∉ d.map Prod.fst) : dictInsert d k v = d ++ [(k, v)] := by
  induction d with
  | nil => rfl
  | cons kv rest ih =>
    obtain ⟨a, b⟩ := kv
    simp only [List.map_cons, List.mem_cons] at h
    push_neg at h
    simp [dictInsert, Ne.symm h.1, ih h.2]

theorem keys_dictInsert {α : Type} (d : List (Str × α)) (k : Str) (v : α) :
    (dictInsert d k v).map Prod.fst =
      if k ∈ d.map Prod.fst then d.map Prod.fst else d.map Prod.fst ++ [k] := by
  induction d with
  | nil => rfl
  | cons kv rest ih =>
    obtain ⟨a, b⟩ := kv
    by_cases hak : a = k
    · subst hak
      simp only [dictInsert]
      rw [if_pos trivial, if_pos (show a ∈ List.map Prod.fst ((a, b) :: rest) from
        List.mem_cons.mpr (Or.inl rfl))]
      simp
    · by_cases hmem : k ∈ rest.map Prod.fst <;>
        simp [dictInsert, hak, ih, hmem, Ne.symm hak]

theorem keys_dictInsert_nodup {α : Type} (d : List (Str × α)) (k : Str) (v : α)
    (h : (d.map Prod.fst).Nodup) : ((dictInsert d k v).map Prod.fst).Nodup := by
  rw [keys_dictInsert]
  by_cases hmem : k ∈ d.map Prod.fst
  · simpa [hmem] using h
  · simp [hmem, List.nodup_append, h]

theorem mem_dictInsert {α : Type} (x : Str × α) (d : List (Str × α)) (k : Str) (v : α)
    (h : x ∈ dictInsert d k v) : x ∈ d ∨ x = (k, v) := by
  induction d with
  | nil => simpa [dictInsert] using h
  | cons kv rest ih =>
    obtain ⟨a, b⟩ := kv
    by_cases hak : a = k
    · subst hak
      simp only [dictInsert] at h
      rw [if_pos trivial] at h
      rcases List.mem_cons.mp h with h1 | h1
      · exact Or.inr h1
      · exact Or.inl (List.mem_cons_of_mem _ h1)
    · simp only [dictInsert] at h
      rw [if_neg hak] at h
      rcases List.mem_cons.mp h with h1 | h1
      · exact Or.inl (by simp [h1])
      · rcases ih h1 with h2 | h2
        · exact Or.inl (List.mem_cons_of_mem _ h2)
        · exact Or.inr h2

/-! ### Redaction lemmas -/

theorem redactStep_of_not_mem (s : List Str) (acc : List (Str × PyVal)) (kv : Str × PyVal)
    (h : kv.1 ∉ acc.map Prod.fst) :
    redactStep s acc kv =
      acc ++ [if pyLower kv.1 ∈ s then (kv.1, REDACTED) else kv] := by
  obtain ⟨k, v⟩ := kv
  by_cases hs : pyLower k ∈ s <;>
    simp [redactStep, hs, dictInsert_of_not_mem _ _ _ h]

theorem redact_foldl_eq_map (s : List Str) (m : List (Str × PyVal)) :
    ∀ acc : List (Str × PyVal),
      (m.map Prod.fst).Nodup →
      (∀ k ∈ m.map Prod.fst, k ∉ acc.map Prod.fst) →
      m.foldl (redactStep s) acc =
        acc ++ m.map (fun kv => if pyLower kv.1 ∈ s then (kv.1, REDACTED) else kv) := by
  induction m with
  | nil =>
    intro acc _ _
    simp
  | cons kv rest ih =>
    intro acc hnod hfresh
    obtain ⟨k, v⟩ := kv
    simp only [List.map_cons, List.nodup_cons] at hnod
    have hkacc : k ∉ acc.map Prod.fst := hfresh k (by simp)
    have hfst : (if pyLower k ∈ s then (k, REDACTED) else (k, v)).1 = k := by
      by_cases hs : pyLower k ∈ s <;> simp [hs]
    rw [List.foldl_cons, redactStep_of_not_mem s acc (k, v) hkacc,
      ih _ hnod.2 ?fresh]
    case fresh =>
      intro k' hk'
      rw [List.map_append]
      simp only [List.mem_append]
      rintro (h | h)
      · exact hfresh k' (List.mem_cons_of_mem _ hk') h
      · have hk'k : k' = k := by simpa [hfst] using h
        exact hnod.1 (hk'k ▸ hk')
    simp [List.append_assoc]

theorem redact_mapping_eq_map (m : List (Str × PyVal)) (s : List Str)
    (hm : (m.map Prod.fst).Nodup) :
    redact_mapping m s =
      m.map (fun kv => if pyLower kv.1 ∈ s then (kv.1, REDACTED) else kv) := by
  have h := redact_foldl_eq_map s m [] hm (by simp)
  simpa [redact_mapping] using h

theorem redact_mapping_keys_nodup (m : List (Str × PyVal)) (s : List Str) :
    ((redact_mapping m s).map Prod.fst).Nodup := by
  have h : ∀ acc : List (Str × PyVal), (acc.map Prod.fst).Nodup →
      ((m.foldl (redactStep s) acc).map Prod.fst).Nodup := by
    induction m with
    | nil =>
      intro acc hacc
      simpa using hacc
    | cons kv rest ih =>
      intro acc hacc
      rw [List.foldl_cons]
      apply ih
      have hcase : redactStep s acc kv = dictInsert acc kv.1 REDACTED ∨
          redactStep s acc kv = dictInsert acc kv.1 kv.2 := by
        by_cases hs : pyLower kv.1 ∈ s
        · exact Or.inl (by simp [redactStep, hs])
        · exact Or.inr (by simp [redactStep, hs])
      rcases hcase with h1 | h1 <;> rw [h1] <;> exact keys_dictInsert_nodup _ _ _ hacc
  simpa [redact_mapping] using h [] (by simp)

theorem redact_mapping_values (m : List (Str × PyVal)) (s : List Str) :
    ∀ x ∈ redact_mapping m s, pyLower x.1 ∈ s → x.2 = REDACTED := by
  have h : ∀ acc : List (Str × PyVal),
      (∀ x ∈ acc, pyLower x.1 ∈ s → x.2 = REDACTED) →
      ∀ x ∈ m.foldl (redactStep s) acc, pyLower x.1 ∈ s → x.2 = REDACTED := by
    induction m with
    | nil =>
      intro acc hacc
      simpa using hacc
    | cons kv rest ih =>
      intro acc hacc
      rw [List.foldl_cons]
      apply ih
      intro x hx hxs
      by_cases hs : pyLower kv.1 ∈ s
      · rw [show redactStep s acc kv = dictInsert acc kv.1 REDACTED from by
          simp [redactStep, hs]] at hx
        rcases mem_dictInsert _ _ _ _ hx with h1 | h1
        · exact hacc x h1 hxs
        · rw [h1]
      · rw [show redactStep s acc kv = dictInsert acc kv.1 kv.2 from by
          simp [redactStep, hs]] at hx
        rcases mem_dictInsert _ _ _ _ hx with h1 | h1
        · exact hacc x h1 hxs
        · exfalso
          rw [h1] at hxs
          exact hs (by simpa using hxs)
  intro x hx
  exact h [] (by simp) x (by simpa [redact_mapping] using hx)

theorem redact_map_fixed (s : List Str) (l : List (Str × PyVal))
    (h : ∀ x ∈ l, pyLower x.1 ∈ s → x.2 = REDACTED) :
    l.map (fun kv => if pyLower kv.1 ∈ s then (kv.1, REDACTED) else kv) = l := by
  induction l with
  | nil => rfl
  | cons kv rest ih =>
    obtain ⟨k, v⟩ := kv
    simp only [List.map_cons]
    rw [ih (fun x hx => h x (List.mem_cons_of_mem _ hx))]
    congr 1
    by_cases hs : pyLower k ∈ s
    · rw [if_pos hs, show v = REDACTED from h (k, v) (List.mem_cons_self _ _) hs]
    · rw [if_neg hs]

/-! ### URL and suffix lemmas -/

theorem http_isPrefixOf_slash_cons (p : Str) :
    "http://".toList.isPrefixOf ('/' :: p) = false := by
  rw [show "http://".toList = 'h' :: "ttp://".toList from rfl, List.isPrefixOf_cons₂,
    show ('h' == '/') = false from rfl, Bool.false_and]

theorem https_isPrefixOf_slash_cons (p : Str) :
    "https://".toList.isPrefixOf ('/' :: p) = false := by
  rw [show "https://".toList = 'h' :: "ttps://".toList from rfl, List.isPrefixOf_cons₂,
    show ('h' == '/') = false from rfl, Bool.false_and]

theorem slash_isPrefixOf_slash_cons (p : Str) :
    "/".toList.isPrefixOf ('/' :: p) = true := by
  rw [show "/".toList = ['/'] from rfl, List.isPrefixOf_cons₂,
    show ('/' == '/') = true from rfl, Bool.true_and, List.isPrefixOf_nil_left]

theorem slash_suffix_iff (l : Str) :
    "/".toList.isSuffixOf l = true ↔ ∃ t, l = t ++ ['/'] := by
  rw [List.isSuffixOf_iff_suffix]
  constructor
  · rintro ⟨t, ht⟩
    exact ⟨t, ht.symm⟩
  · rintro ⟨t, ht⟩
    exact ⟨t, ht.symm⟩

theorem dslash_suffix_iff (l : Str) :
    "//".toList.isSuffixOf l = true ↔ ∃ t, l = t ++ ['/', '/'] := by
  rw [List.isSuffixOf_iff_suffix]
  constructor
  · rintro ⟨t, ht⟩
    exact ⟨t, ht.symm⟩
  · rintro ⟨t, ht⟩
    exact ⟨t, ht.symm⟩

theorem bool_ne_true {x : Bool} (h : x = false) : ¬(x = true) := by
  intro hc
  rw [hc] at h
  exact Bool.noConfusion h

/-! ### Claim C2: base-URL trailing-slash normalization -/

/-- C2 (counterexample): the claim "for every base URL string ending in
one or more trailing slashes ... the stored base URL never ends with '/'"
fails at the concrete input `"https://example.com//"`: it ends in a
slash, yet the stored base URL (`"https://example.com/"`, one slash
stripped) still ends with `'/'`. -/
theorem clientInit_double_slash_cex :
    "/".toList.isSuffixOf "https://example.com//".toList = true ∧
    "/".toList.isSuffixOf
      (clientInit "https://example.com//".toList 10 Option.none Option.none true).base_url
      = true := by
  constructor
  · decide
  · decide

/-- C2 (amended): the `APIClient` constructor strips exactly one trailing
slash (`base_url[:-1]`, i.e. the last code point) when the base URL ends
with `'/'`, leaves it unchanged otherwise, and the stored base URL does
not end with `'/'` provided the input does not end in two or more
slashes. -/
theorem clientInit_slash_normalization (b : Str) (t : ℚ)
    (h : Option (List (Str × Str))) (a : Option PyVal) (rfs : Bool) :
    ("/".toList.isSuffixOf b = true →
       (clientInit b t h a rfs).base_url = b.dropLast) ∧
    ("/".toList.isSuffixOf b = false →
       (clientInit b t h a rfs).base_url = b) ∧
    ("//".toList.isSuffixOf b = false →
       "/".toList.isSuffixOf (clientInit b t h a rfs).base_url = false) := by
  refine ⟨?strip, ?keep, ?single⟩
  case strip =>
    intro hs
    show (if "/".toList.isSuffixOf b then b.dropLast else b) = b.dropLast
    rw [if_pos hs]
  case keep =>
    intro hs
    show (if "/".toList.isSuffixOf b then b.dropLast else b) = b
    rw [if_neg (bool_ne_true hs)]
  case single =>
    intro hdd
    by_cases hs : "/".toList.isSuffixOf b = true
    · have hbase : (clientInit b t h a rfs).base_url = b.dropLast := by
        show (if "/".toList.isSuffixOf b then b.dropLast else b) = b.dropLast
        rw [if_pos hs]
      rw [hbase]
      by_contra hcon
      rw [Bool.not_eq_false] at hcon
      obtain ⟨t1, ht1⟩ := (slash_suffix_iff b).mp hs
      obtain ⟨t2, ht2⟩ := (slash_suffix_iff b.dropLast).mp hcon
      have hdl : b.dropLast = t1 := by
        rw [ht1]
        exact List.dropLast_concat
      have ht3 : t1 = t2 ++ ['/'] := by rw [← hdl, ht2]
      have hdd2 : "//".toList.isSuffixOf b = true := by
        refine (dslash_suffix_iff b).mpr ⟨t2, ?eq⟩
        rw [ht1, ht3, List.append_assoc]
        rfl
      rw [hdd2] at hdd
      exact Bool.noConfusion hdd
    · have hs' : "/".toList.isSuffixOf b = false := by
        rwa [Bool.not_eq_true] at hs
      have hbase : (clientInit b t h a rfs).base_url = b := by
        show (if "/".toList.isSuffixOf b then b.dropLast else b) = b
        rw [if_neg (bool_ne_true hs')]
      rw [hbase]
      exact hs'

/-- C2 (witness): at the spec's example `"https://example.com/"` the
constructor strips the single trailing slash. -/
theorem clientInit_slash_normalization_witness :
    (clientInit "https://example.com/".toList 10 Option.none Option.none true).base_url =
      "https://example.com/".toList.dropLast :=
  (clientInit_slash_normalization "https://example.com/".toList 10
    Option.none Option.none true).1 (by decide)

/-! ### Claim C4: URL composition -/

/-- C4: `_build_url` returns a path beginning with `http://` or
`https://` unchanged; otherwise it prepends `'/'` if and only if the
path does not already begin with `'/'`; and its result is a fixed point
of `_build_url`. -/
theorem build_url_spec (p : Str) :
    (("http://".toList.isPrefixOf p || "https://".toList.isPrefixOf p) = true →
       build_url p = p) ∧
    (("http://".toList.isPrefixOf p || "https://".toList.isPrefixOf p) = false →
       build_url p = if "/".toList.isPrefixOf p then p else '/' :: p) ∧
    build_url (build_url p) = build_url p := by
  refine ⟨?abs, ?rel, ?idem⟩
  case abs =>
    intro hA
    unfold build_url
    rw [if_pos hA]
  case rel =>
    intro hA
    unfold build_url
    rw [if_neg (bool_ne_true hA)]
  case idem =>
    by_cases hA : ("http://".toList.isPrefixOf p || "https://".toList.isPrefixOf p) = true
    · have h1 : build_url p = p := by
        unfold build_url
        rw [if_pos hA]
      rw [h1]
      exact h1
    · by_cases hS : "/".toList.isPrefixOf p = true
      · have h1 : build_url p = p := by
          unfold build_url
          rw [if_neg hA, if_pos hS]
        rw [h1]
        exact h1
      · have h1 : build_url p = '/' :: p := by
          unfold build_url
          rw [if_neg hA, if_neg hS]
        rw [h1]
        unfold build_url
        rw [if_neg (by simp [http_isPrefixOf_slash_cons, https_isPrefixOf_slash_cons]),
          if_pos (slash_isPrefixOf_slash_cons p)]

/-- C4 (witness): `_build_url "test" = "/test"`, per the spec's example. -/
theorem build_url_spec_witness :
    build_url "test".toList =
      (if "/".toList.isPrefixOf "test".toList then "test".toList else '/' :: "test".toList) :=
  (build_url_spec "test".toList).2.1 (by decide)

/-! ### Claim C3: header merging -/

theorem requestMergedHeaders_eq (D : List (Str × Str)) (H : Option (List (Str × Str))) :
    requestMergedHeaders D H = dictUpdate (dictUpdate [] D) (H.getD []) := by
  have hmerged : (if D ≠ [] then dictUpdate [] D else []) = dictUpdate [] D := by
    by_cases hD : D = []
    · rw [if_neg (by simp [hD]), hD]
      rfl
    · rw [if_pos hD]
  cases H with
  | none =>
    show (if D ≠ [] then dictUpdate [] D else []) = dictUpdate (dictUpdate [] D) []
    rw [hmerged]
    rfl
  | some h =>
    show (if h ≠ [] then dictUpdate (if D ≠ [] then dictUpdate [] D else []) h
          else (if D ≠ [] then dictUpdate [] D else [])) =
        dictUpdate (dictUpdate [] D) h
    rw [hmerged]
    by_cases hh : h = []
    · rw [if_neg (by simp [hh]), hh]
      rfl
    · rw [if_pos hh]

/-- C3: the effective request headers are the default headers overlaid by
the per-call headers, with per-call entries winning on (case-sensitive,
exact) key collision, and keys present on only one side looked up
unchanged: at every key, the merged dict yields the per-call value when
present and the default value otherwise. -/
theorem request_headers_merge (D H : List (Str × Str)) (k : Str)
    (hD : (D.map Prod.fst).Nodup) (hH : (H.map Prod.fst).Nodup) :
    dictGet (requestMergedHeaders D (some H)) k =
      match dictGet H k with
      | some v => some v
      | Option.none => dictGet D k := by
  rw [requestMergedHeaders_eq, Option.getD_some, dictGet_dictUpdate H k hH]
  cases hHk : dictGet H k
  · show dictGet (dictUpdate [] D) k = dictGet D k
    rw [dictGet_dictUpdate D k hD]
    cases hDk : dictGet D k
    · rfl
    · rfl
  · rfl

/-- C3 (witness): the spec's example — default `{"X-A": "1"}` overlaid by
per-call `{"X-A": "2"}` yields `"2"`. -/
theorem request_headers_merge_witness :
    dictGet (requestMergedHeaders [("X-A".toList, "1".toList)]
      (some [("X-A".toList, "2".toList)])) "X-A".toList = some "2".toList := by
  rw [request_headers_merge [("X-A".toList, "1".toList)] [("X-A".toList, "2".toList)]
    "X-A".toList (by decide) (by decide)]
  rfl

/-! ### Claims C1 and C5: outcome classification in `request` -/

/-- C1: with `raise_for_status` enabled, a transport response with status
code in `[200, 300)` is returned unchanged, and a response with any other
status code raises `APIResponseError` carrying exactly that status code,
the final URL of the response, and its body preview. -/
theorem request_raise_for_status (c : Client) (transport : Transport) (method path : Str)
    (params : Option (List (Str × PyVal))) (headers : Option (List (Str × Str)))
    (json : Option PyVal) (data : Option Str) (r : Response)
    (ht : ∀ call, transport call = .ok r)
    (hraise : c.raise_for_status = true) :
    (200 ≤ r.status_code ∧ r.status_code < 300 →
       request c transport method path params headers json data = .ok r) ∧
    (¬(200 ≤ r.status_code ∧ r.status_code < 300) →
       request c transport method path params headers json data =
         .error (.responseError r.status_code r.url (safe_body_preview r 500))) := by
  constructor
  · intro h
    unfold request
    simp only [ht]
    rw [if_neg fun hc => hc.2 h]
  · intro h
    unfold request
    simp only [ht]
    rw [if_pos ⟨hraise, h⟩]

/-- A client over `https://api.example.com` with no default headers, used
in the concrete checks. -/
def sampleClient : Client :=
  clientInit "https://api.example.com".toList 10 Option.none Option.none true

/-- A concrete 204 response used in the concrete checks. -/
def sampleOk : Response :=
  { status_code := 204
    url := "https://api.example.com/x".toList
    content_type := .ok "text/plain".toList
    json := .error ()
    text := .ok "ok".toList }

/-- C1 (witness): a 204 response passes through `request` unchanged. -/
theorem request_raise_for_status_witness :
    request sampleClient (fun _ => Except.ok sampleOk) "get".toList "/x".toList
      Option.none Option.none Option.none Option.none = Except.ok sampleOk :=
  (request_raise_for_status sampleClient (fun _ => Except.ok sampleOk) "get".toList
    "/x".toList Option.none Option.none Option.none Option.none sampleOk
    (fun _ => rfl) rfl).1 (by decide)

/-- C5: when the transport raises, the caller receives `APIRequestError`
whose message contains the resolved URL and whose chained cause is the
original low-level failure; no `APIResponseError` is raised in this
case. -/
theorem request_network_error (c : Client) (transport : Transport) (method path : Str)
    (params : Option (List (Str × PyVal))) (headers : Option (List (Str × Str)))
    (json : Option PyVal) (data : Option Str) (e : Str)
    (ht : ∀ call, transport call = .error e) :
    request c transport method path params headers json data =
      .error (.requestError ("Error while requesting ".toList ++ build_url path) e) ∧
    (∃ s t, "Error while requesting ".toList ++ build_url path = s ++ build_url path ++ t) ∧
    ∀ sc u b, request c transport method path params headers json data ≠
      .error (.responseError sc u b) := by
  have hmain : request c transport method path params headers json data =
      .error (.requestError ("Error while requesting ".toList ++ build_url path) e) := by
    unfold request
    simp only [ht]
  refine ⟨hmain, ⟨"Error while requesting ".toList, [], by simp⟩, ?no_resp⟩
  case no_resp =>
    intro sc u b
    rw [hmain]
    intro hc
    injection hc with hc2
    exact APIError.noConfusion hc2

/-- C5 (witness): a connection-refused transport failure surfaces as the
request-error wrapping the resolved URL and the original cause. -/
theorem request_network_error_witness :
    request sampleClient (fun _ => Except.error "connection refused".toList)
      "get".toList "/x".toList Option.none Option.none Option.none Option.none =
      Except.error (.requestError
        ("Error while requesting ".toList ++ build_url "/x".toList)
        "connection refused".toList) :=
  (request_network_error sampleClient (fun _ => Except.error "connection refused".toList)
    "get".toList "/x".toList Option.none Option.none Option.none Option.none
    "connection refused".toList (fun _ => rfl)).1

/-! ### Claims C6 and C8: body preview -/

theorem safe_body_preview_err (r : Response) (e : Unit) (mx : Nat)
    (hct : r.content_type = .error e) :
    safe_body_preview r mx = ⟨"unknown".toList, Option.none⟩ := by
  unfold safe_body_preview
  rw [hct]

theorem safe_body_preview_ok (r : Response) (ct : Str) (mx : Nat)
    (hct : r.content_type = .ok ct) :
    safe_body_preview r mx =
      if strIn "application/json".toList (pyLower ct) then
        match r.json with
        | .error _ => ⟨"unknown".toList, Option.none⟩
        | .ok obj => ⟨"json".toList, some obj⟩
      else
        match r.text with
        | .error _ => ⟨"unknown".toList, Option.none⟩
        | .ok text =>
          ⟨"text".toList,
           some (.str (if text.length > mx then text.take (mx - 3) ++ "...".toList
                       else text))⟩ := by
  unfold safe_body_preview
  rw [hct]

/-- C6: `_safe_body_preview` never raises: any exception during
content-type header access, JSON parsing or text decoding is caught and
the result is the preview of kind `"unknown"` with null content; in
particular a response declaring a JSON content type whose body is
unparseable yields the `"unknown"`/`None` preview rather than an
error. -/
theorem safe_body_preview_no_throw (r : Response)
    (h : r.content_type = .error () ∨
      (∃ ct, r.content_type = .ok ct ∧
        strIn "application/json".toList (pyLower ct) = true ∧ r.json = .error ()) ∨
      (∃ ct, r.content_type = .ok ct ∧
        strIn "application/json".toList (pyLower ct) = false ∧ r.text = .error ())) :
    safe_body_preview r 500 = { type := "unknown".toList, preview := Option.none } := by
  rcases h with h1 | ⟨ct, hct, hj, hb⟩ | ⟨ct, hct, hj, hb⟩
  · exact safe_body_preview_err r () 500 h1
  · rw [safe_body_preview_ok r ct 500 hct, if_pos hj, hb]
  · rw [safe_body_preview_ok r ct 500 hct, if_neg (bool_ne_true hj), hb]

/-- A response declaring JSON whose body fails to parse, for the concrete
checks. -/
def sampleBadJson : Response :=
  { status_code := 500
    url := "https://api.example.com/x".toList
    content_type := .ok "application/json".toList
    json := .error ()
    text := .error () }

/-- C6 (witness): the declared-JSON, unparseable-body response yields the
`"unknown"` preview with null content. -/
theorem safe_body_preview_no_throw_witness :
    safe_body_preview sampleBadJson 500 =
      { type := "unknown".toList, preview := Option.none } :=
  safe_body_preview_no_throw sampleBadJson
    (Or.inr (Or.inl ⟨"application/json".toList, rfl, by decide, rfl⟩))

/-- C8: for a non-JSON response body read as text, a text longer than 500
characters is truncated to 497 characters with the ellipsis marker
appended — so the preview never exceeds 500 characters — and a text of at
most 500 characters is included unchanged. -/
theorem safe_body_preview_truncation (r : Response) (ct text : Str)
    (hct : r.content_type = .ok ct)
    (hj : strIn "application/json".toList (pyLower ct) = false)
    (htext : r.text = .ok text) :
    (text.length > 500 →
      safe_body_preview r 500 =
        { type := "text".toList, preview := some (.str (text.take 497 ++ "...".toList)) } ∧
      (text.take 497 ++ "...".toList).length ≤ 500) ∧
    (text.length ≤ 500 →
      safe_body_preview r 500 =
        { type := "text".toList, preview := some (.str text) }) := by
  have hform : safe_body_preview r 500 =
      ⟨"text".toList,
       some (.str (if text.length > 500 then text.take (500 - 3) ++ "...".toList
                   else text))⟩ := by
    rw [safe_body_preview_ok r ct 500 hct, if_neg (bool_ne_true hj), htext]
  constructor
  · intro hlen
    constructor
    · rw [hform, if_pos hlen]
    · have h497 : (text.take 497).length = 497 := by
        rw [List.length_take]
        omega
      rw [List.length_append, h497, show ("...".toList : Str).length = 3 from rfl]
  · intro hlen
    rw [hform, if_neg (by omega)]

/-- A plain-text response with a 501-character body, for the concrete
checks. -/
def sampleLongText : Response :=
  { status_code := 500
    url := "https://api.example.com/x".toList
    content_type := .ok "text/plain".toList
    json := .error ()
    text := .ok (List.replicate 501 'a') }

/-- C8 (witness): a 501-character body is truncated to 497 characters
plus the ellipsis, totalling exactly 500. -/
theorem safe_body_preview_truncation_witness :
    safe_body_preview sampleLongText 500 =
      { type := "text".toList
        preview := some (.str ((List.replicate 501 'a').take 497 ++ "...".toList)) } ∧
    ((List.replicate 501 'a').take 497 ++ "...".toList).length ≤ 500 :=
  (safe_body_preview_truncation sampleLongText "text/plain".toList
    (List.replicate 501 'a') rfl (by decide) rfl).1
    (by rw [List.length_replicate]; omega)

/-! ### Claims C7 and C10: redaction -/

/-- C7: header redaction is case-insensitive and key-preserving: on a
header mapping (unique keys, as produced by the header merge), every
entry whose key lower-cases to `authorization` or `proxy-authorization`
has its value replaced by the fixed marker with the key preserved, and
every other entry passes through unchanged. -/
theorem redact_headers_case_insensitive (m : List (Str × PyVal))
    (hm : (m.map Prod.fst).Nodup) :
    redact_mapping m SENSITIVE_HEADER_KEYS =
      m.map (fun kv =>
        if pyLower kv.1 = "authorization".toList ∨
            pyLower kv.1 = "proxy-authorization".toList
        then (kv.1, REDACTED) else kv) := by
  have hiff : ∀ x : Str, x ∈ SENSITIVE_HEADER_KEYS ↔
      (x = "authorization".toList ∨ x = "proxy-authorization".toList) := by
    intro x
    simp [SENSITIVE_HEADER_KEYS]
  rw [redact_mapping_eq_map m SENSITIVE_HEADER_KEYS hm]
  refine List.map_congr_left ?_
  intro kv _
  by_cases hs : pyLower kv.1 ∈ SENSITIVE_HEADER_KEYS
  · rw [if_pos hs, if_pos ((hiff _).mp hs)]
  · rw [if_neg hs, if_neg (fun hc => hs ((hiff _).mpr hc))]

/-- C7 (witness): `Authorization` (capitalized) is redacted to the marker
while a non-sensitive header passes through unchanged. -/
theorem redact_headers_case_insensitive_witness :
    redact_mapping
      [("Authorization".toList, PyVal.str "tok".toList),
       ("X-A".toList, PyVal.str "1".toList)] SENSITIVE_HEADER_KEYS =
      [("Authorization".toList, REDACTED), ("X-A".toList, PyVal.str "1".toList)] := by
  rw [redact_headers_case_insensitive _ (by decide)]
  rfl

/-- C10: redaction is idempotent: applying `_redact_mapping` with the
same sensitive-key set to its own output yields that output unchanged. -/
theorem redact_mapping_idempotent (m : List (Str × PyVal)) (s : List Str) :
    redact_mapping (redact_mapping m s) s = redact_mapping m s := by
  rw [redact_mapping_eq_map _ _ (redact_mapping_keys_nodup m s)]
  exact redact_map_fixed s _ (redact_mapping_values m s)

/-! ### Claim C9: logging decorator contract -/

/-- C9: `LoggedClient.request` does not alter the wrapped pipeline's
success/failure contract: the outcome returned to the caller is exactly
the wrapped `request`'s outcome (errors rethrown unchanged and not
suppressed, successful responses returned unchanged), and the
elapsed-time measurement is computed on every exit path. -/
theorem logged_request_contract (lc : LoggedClient) (transport : Transport)
    (method path : Str) (params : Option (List (Str × PyVal)))
    (headers : Option (List (Str × Str))) (json : Option PyVal) (data : Option Str)
    (t0 t1 : ℚ) :
    (logged_request lc transport method path params headers json data t0 t1).1 =
      request lc.client transport method path params headers json data ∧
    (logged_request lc transport method path params headers json data t0 t1).2.1 =
      (t1 - t0) * 1000 := by
  unfold logged_request
  cases hreq : request lc.client transport method path params headers json data
  · exact ⟨rfl, rfl⟩
  · exact ⟨rfl, rfl⟩

end Apitkt
